import Mathlib

/-!
Verification of the gossip messaging library against its specification.

The development shallowly embeds the relevant JavaScript source functions:

* `src/core/utils.js` / `src/unnamed/part_006` — `randRange`, `getPath`
* `src/core/registry.js` — `Registry.prototype._prune`
* `src/core/hub.js` — `Hub.prototype.onAck`, `Hub.prototype.onReply`,
  `Hub.prototype.reply`, `Hub.prototype._addReplyHandler`
* `src/core/protocol.js` — the evolved `Hub` draft (`onAck`, `onReply`, `reply`)
* `src/unnamed/part_004` — `Node.prototype.send`, `Node.prototype.sendTo`,
  `Node.prototype.reply`, `Node.prototype._onReply`
* `src/unnamed/part_001` — `Message` (`get`, `set`, `serialize`, `deserialize`)
* `src/unnamed/part_002` — `MessageStream`
* `src/unnamed/part_003` — `MessageFactory.build`

JavaScript's `undefined` is modelled as `Option.none`; machine integers do not
matter here (all arithmetic on ids and times is small), so numbers are `Int`,
`Nat` and `ℚ` (for `Math.random()` draws in `[0, 1)`).  JSON.parse /
JSON.stringify are modelled by an executable parser/printer pair over an
inductive JSON value type.
-/

namespace Gossip

/-! ### utils.randRange (src/core/utils.js lines 41-51, src/unnamed/part_006 lines 44-54)

`return Math.floor(a + Math.random() * b);` — `Math.random()` is modelled as a
rational draw `r` with `0 ≤ r < 1`. -/

/-- Embedding of `utils.randRange(a, b)` for the two-argument call, with the
underlying `Math.random()` draw made explicit. -/
def randRange (a b : Int) (r : ℚ) : Int :=
  ⌊(a : ℚ) + r * (b : ℚ)⌋

/-! ### Registry._prune (src/core/registry.js lines 135-151)

The registry map sends node ids to records whose `heartbeatTime` field is the
liveness deadline (set by `_onHeartbeat` to `now + HEARTBEAT`); a record that
never received a heartbeat has no `heartbeatTime` property (`undefined > now`
is false in JavaScript).  `_prune` walks the keys in insertion order and, for
each record satisfying `node.heartbeatTime > current`, publishes a prune
message for it and deletes it from the map. -/

/-- The test `node.heartbeatTime > current` from `_prune`; an absent
`heartbeatTime` compares false. -/
def pruneTest (current : Int) (heartbeatTime : Option Int) : Bool :=
  match heartbeatTime with
  | some t => current < t
  | none => false

/-- Embedding of `Registry.prototype._prune`: returns the ids for which a
prune message is published (in iteration order) together with the map after
the deletions. -/
def regPrune (map : List (String × Option Int)) (current : Int) :
    List String × List (String × Option Int) :=
  ((map.filter (fun e => pruneTest current e.2)).map (fun e => e.1),
   map.filter (fun e => !pruneTest current e.2))

/-! ### Pending-ack table and Hub.onAck

`Hub.prototype._addAckHandler` (src/core/hub.js lines 525-533) keys the
`_pendingAcks` table by the id of the outbound message.  The table is modelled
as an association list from message id to the `fulfilled` flag. -/

/-- A message envelope as used by the hub/node models.  Absent fields are
`none`; the payload is kept opaque as a numeric tag. -/
structure Envelope where
  id : Option String := none
  src : Option String := none
  dest : Option String := none
  type : Option String := none
  parent : Option String := none
  data : Option Nat := none
deriving DecidableEq

/-- Embedding of `Hub.prototype.onAck` from src/core/hub.js lines 348-355:
the table is indexed with `body.id` — the id of the `_ack` message itself —
and a hit sets `fulfilled` and deletes the entry (net effect: deletion). -/
def hubOnAck (table : List (String × Bool)) (body : Envelope) :
    List (String × Bool) :=
  match body.id with
  | some i =>
      if (table.lookup i).isSome then table.filter (fun e => e.1 ≠ i) else table
  | none => table

/-- Embedding of `Hub.prototype.onAck` from src/core/protocol.js lines
392-397: the lookup key is `msg.id`, a property of the `Message` *object*
(which only has `data` and `raw` fields), so the key is always `undefined`
and the table is never changed. -/
def protocolOnAck (table : List (String × Bool)) (_msg : Envelope) :
    List (String × Bool) :=
  table

/-! ### Pending-reply table, Hub.onReply and Node._onReply

`_pendingReplies` maps a message id to `\x7b cb: [...] \x7d` (hub.js) or
`\x7b cbs: [...] \x7d` (part_004); callbacks are modelled as opaque numeric
tags, and "invoking" them yields the list of tags in invocation order. -/

/-- Embedding of `Hub.prototype.onReply` (src/core/hub.js lines 394-403 and
src/core/protocol.js lines 445-454): look up `body.parent`, call every
callback in registration order, then `delete` the entry. -/
def hubOnReply (table : List (String × List Nat)) (parent : Option String) :
    List Nat × List (String × List Nat) :=
  match parent with
  | some p =>
      match table.lookup p with
      | some cbs => (cbs, table.filter (fun e => e.1 ≠ p))
      | none => ([], table)
  | none => ([], table)

/-- Embedding of `Node.prototype._onReply` (src/unnamed/part_004 lines
542-558): look up `body.parent` and call every callback in registration
order; the entry is *not* deleted. -/
def nodeOnReply (table : List (String × List Nat)) (parent : Option String) :
    List Nat × List (String × List Nat) :=
  match parent with
  | some p =>
      match table.lookup p with
      | some cbs => (cbs, table)
      | none => ([], table)
  | none => ([], table)

/-! ### Node.send and Node.sendTo (src/unnamed/part_004 lines 326-381)

`_clusterByMsg` maps a message type to the *array* of node descriptors
interested in it; `_cluster` maps node ids to descriptors.  `send` draws
`dest = utils.randRange(0, this._clusterByMsg[type].length)` and calls
`this.sendTo(dest, type, data, cb)` — the JavaScript property access
`this._cluster[dest]` coerces the numeric index to its decimal string. -/

inductive SendErr where
  /-- `new Error('nobody cares about that message type')` from `send`. -/
  | noSubscribers
  /-- `new Error('no such node')` from `sendTo` / `reply`. -/
  | unknownPeer
deriving DecidableEq

/-- Embedding of `Node.prototype.sendTo` restricted to the part the claims
need: the cluster-membership check and the envelope that is put on the router
socket (built by `this._msgFactory.build(\x7b dest: id, type: type, data: data \x7d)`,
which stamps a fresh id and this node's id as `src`). -/
def sendTo (selfId freshId : String) (cluster : List String) (id ty : String)
    (data : Option Nat) : Except SendErr Envelope :=
  if cluster.contains id then
    .ok { id := some freshId, src := some selfId, dest := some id,
          type := some ty, data := data }
  else
    .error .unknownPeer

/-- Embedding of `Node.prototype.send` (src/unnamed/part_004 lines 326-335).
`clusterByMsg.lookup ty = none` models the absent index entry rejected by
`if (!this._clusterByMsg[type])`; an *empty* array is truthy in JavaScript and
passes that test.  The drawn index `dest` is handed to `sendTo` as the node
id, coerced to a decimal string by the property access. -/
def send (selfId freshId : String) (cluster : List String)
    (clusterByMsg : List (String × List String)) (ty : String)
    (data : Option Nat) (r : ℚ) : Except SendErr Envelope :=
  match clusterByMsg.lookup ty with
  | none => .error .noSubscribers
  | some subs =>
      let dest := randRange 0 subs.length r
      sendTo selfId freshId cluster (toString dest) ty data

/-! ### MessageFactory.build (src/unnamed/part_003 lines 21-46)

Defaults (`id` generator and fixed `src`) are applied first, then the caller's
body keys overwrite them. -/

/-- Embedding of `MessageFactory.prototype.build` for a factory whose defaults
are an id generator and the fixed source id: a field given by the body wins
over the default. -/
def factoryBuild (selfId freshId : String) (body : Envelope) : Envelope :=
  { id := some (body.id.getD freshId),
    src := some (body.src.getD selfId),
    dest := body.dest,
    type := body.type,
    parent := body.parent,
    data := body.data }

/-! ### The three reply implementations (claim C4)

* `Hub.prototype.reply`, src/core/hub.js lines 365-392: builds
  `\x7b parent: msg.body().id \x7d` (no `type` field!) and then evaluates
  `replyMsg().rawBody()` — but `replyMsg` is a `Message` object, not a
  function, so the call raises `TypeError` before anything reaches
  `_sendRouter`.
* `Hub.prototype.reply`, src/core/protocol.js lines 407-435: builds
  `\x7b parent: id, type: '_reply' \x7d`, sets `data` when given, and sends
  `[Hub.routerSocketId(src), EMPTY_BUFFER, reply.serialize()]`.
* `Node.prototype.reply`, src/unnamed/part_004 lines 421-447: builds
  `\x7b dest: origMsg.src, type: '_reply', data: data, parent: origMsg.id \x7d`
  and sends `[Node.buildSocketId(origMsg.src), msg.raw()]`. -/

inductive JsErr where
  /-- A JavaScript `TypeError` (calling a non-function, or reading/writing a
  property of `undefined`/`null`). -/
  | typeError
deriving DecidableEq

/-- The reply envelope built inside `Hub.prototype.reply` in src/core/hub.js:
only `parent` (and possibly `data`) are passed to the factory, so the built
message has no `type` field. -/
def hubBuildReply (selfId freshId : String) (orig : Envelope)
    (data : Option Nat) : Envelope :=
  factoryBuild selfId freshId { parent := orig.id, data := data }

/-- Embedding of `Hub.prototype.reply` from src/core/hub.js lines 365-392.
The frame list would be
`[Hub.routerSocketId(src), EMPTY_BUFFER, replyMsg().rawBody()]`, but its third
element invokes `replyMsg` — a `Message` object — as a function, which raises
`TypeError`, so `_sendRouter` is never reached and no envelope is emitted. -/
def hubReply (selfId freshId : String) (orig : Envelope) (data : Option Nat) :
    Except JsErr (String × Envelope) :=
  let _replyMsg := hubBuildReply selfId freshId orig data
  .error .typeError

/-- Embedding of `Hub.routerSocketId` (src/core/hub.js lines 577-580): the
byte string `'g' + id`.  An undefined id coerces to the string
`"undefined"`. -/
def routerSocketId (id : Option String) : String :=
  "g" ++ id.getD "undefined"

/-- Embedding of `Node.buildSocketId` (src/unnamed/part_004 lines 942-946):
the byte string `'z' + id`. -/
def buildSocketId (id : Option String) : String :=
  "z" ++ id.getD "undefined"

/-- Embedding of `Hub.prototype.reply` from src/core/protocol.js lines
407-435: returns the router frame target (the peer's router socket id) and
the reply envelope that is serialized onto the router socket. -/
def protocolReply (selfId freshId : String) (orig : Envelope)
    (data : Option Nat) : String × Envelope :=
  let reply := factoryBuild selfId freshId
    { parent := orig.id, type := some "_reply" }
  (routerSocketId orig.src, { reply with data := data })

/-- Embedding of `Node.prototype.reply` from src/unnamed/part_004 lines
421-447: after the cluster-membership check on `origMsg.src`, returns the
router frame target and the reply envelope. -/
def nodeReply (selfId freshId : String) (cluster : List String)
    (orig : Envelope) (data : Option Nat) :
    Except SendErr (String × Envelope) :=
  match orig.src with
  | some s =>
      if cluster.contains s then
        .ok (buildSocketId orig.src,
             factoryBuild selfId freshId
               { dest := orig.src, type := some "_reply", data := data,
                 parent := orig.id })
      else .error .unknownPeer
  | none => .error .unknownPeer

/-! ### MessageStream (src/unnamed/part_002)

States: `0` ready, `1` flowing, `2` closed.  Emitted messages are recorded as
an explicit trace so that "emits no message event" is the statement that the
trace is unchanged. -/

structure MessageStream where
  received : Nat
  state : Nat
  emitted : List Nat
deriving DecidableEq

/-- Embedding of `MessageStream.prototype.emitMessage` (src/unnamed/part_002
lines 39-49). -/
def MessageStream.emitMessage (s : MessageStream) (m : Nat) : MessageStream :=
  if s.state = 0 then
    { received := s.received + 1, state := 1, emitted := s.emitted ++ [m] }
  else if s.state = 2 then s
  else
    { s with received := s.received + 1, emitted := s.emitted ++ [m] }

/-- Embedding of `MessageStream.prototype.close` (src/unnamed/part_002 lines
51-53). -/
def MessageStream.close (s : MessageStream) : MessageStream :=
  { s with state := 2 }

/-- The operations a `MessageStream` exposes. -/
inductive StreamOp where
  | emitMsg (m : Nat)
  | closeOp
deriving DecidableEq

/-- Apply one `MessageStream` operation. -/
def streamStep (s : MessageStream) : StreamOp → MessageStream
  | .emitMsg m => s.emitMessage m
  | .closeOp => s.close

/-! ### JavaScript values

A JSON-representable JavaScript value.  Objects keep their properties in
insertion order, as JavaScript objects do.  Strings are lists of characters.
`undefined` is not a value of this type; it is represented by `Option.none`
wherever it can occur.  Arrays and strings are treated as non-mapping leaves
by the dotted-path operations (numeric-index and `length` properties are not
modelled; the envelopes the library navigates address plain objects). -/

mutual

inductive Js where
  | null : Js
  | bool (b : Bool) : Js
  | num (n : Int) : Js
  | str (s : List Char) : Js
  | arr (elems : JsArr) : Js
  | obj (fields : JsObj) : Js
deriving DecidableEq

inductive JsArr where
  | nil : JsArr
  | cons (hd : Js) (tl : JsArr) : JsArr
deriving DecidableEq

inductive JsObj where
  | nil : JsObj
  | cons (key : List Char) (val : Js) (tl : JsObj) : JsObj
deriving DecidableEq

end

/-- The empty JavaScript object literal. -/
def jsEmptyObj : Js := .obj .nil

/-- JavaScript truthiness of a defined value. -/
def jsTruthy : Js → Bool
  | .null => false
  | .bool b => b
  | .num n => n ≠ 0
  | .str s => s ≠ []
  | .arr _ => true
  | .obj _ => true

/-- Property lookup on an object's field list (JavaScript object keys are
unique, so the first match is the only match). -/
def lookupField : JsObj → List Char → Option Js
  | .nil, _ => none
  | .cons k v t, key => if k = key then some v else lookupField t key

/-- Property assignment on an object's field list: overwrite an existing key
in place, otherwise append (JavaScript insertion order). -/
def setField : JsObj → List Char → Js → JsObj
  | .nil, key, v => .cons key v .nil
  | .cons k w t, key, v =>
      if k = key then .cons k v t else .cons k w (setField t key v)

/-- The JavaScript property access `v[p]` for a defined value `v`: object
lookup; `undefined` on every other value. -/
def jsIndex (v : Js) (p : List Char) : Option Js :=
  match v with
  | .obj fs => lookupField fs p
  | _ => none

/-! ### Dotted paths -/

/-- Splitting a character list on `'.'`, as `path.split('.')` does: the empty
path yields `[[]]`, and separators at the ends yield empty pieces. -/
def splitDotAux : List Char → List Char → List (List Char)
  | [], acc => [acc.reverse]
  | c :: cs, acc =>
      if c = '.' then acc.reverse :: splitDotAux cs []
      else splitDotAux cs (c :: acc)

/-- Embedding of `path.split('.')`. -/
def splitDot (path : List Char) : List (List Char) :=
  splitDotAux path []

/-! ### Message.get (src/unnamed/part_001 lines 46-66)

The loop body is
`current = (current === undefined || current === null) ? undefined : current[pieces[i]];`
followed by a break once `current` is `undefined`. -/

/-- One loop of `Message.prototype.get` over the path pieces. -/
def getGo : Option Js → List (List Char) → Option Js
  | c, [] => c
  | c, p :: ps =>
      match c with
      | none => none
      | some .null => getGo none ps
      | some v => getGo (jsIndex v p) ps

/-- Embedding of `Message.prototype.get(path)` on the structured body
(`data`); the empty path is falsy and returns the whole body. -/
def msgGet (data : Option Js) (path : String) : Option Js :=
  if path = "" then data else getGo data (splitDot path.toList)

/-! ### utils.getPath (src/core/utils.js lines 62-79, src/unnamed/part_006
lines 65-82)

The loop body is
`current = (object === undefined || object === null) ? undefined : object[pieces[i]];`
— note that it tests and indexes `object`, the original argument, on every
iteration, so only the last assignment survives. -/

/-- Embedding of `utils.getPath(object, path)`.  The path-piece cache is
semantically transparent (the cached pieces equal `path.split('.')`). -/
def getPath (object : Option Js) (path : String) : Option Js :=
  (splitDot path.toList).foldl
    (fun _ p =>
      match object with
      | none => none
      | some .null => none
      | some v => jsIndex v p)
    object

/-! ### Message.set (src/unnamed/part_001 lines 21-39)

```
var pieces = path.split('.');
var current = this.data;
if (!this.data) \x7b this.data = \x7b\x7d; \x7d
for (var i = 0, len = pieces.length; i < len; i++) \x7b
  if (i === len - 1) \x7b
    current[pieces[i]] = value;
  \x7d else \x7b
    if (!current[pieces[i]]) \x7b current[pieces[i]] = \x7b\x7d; \x7d
    current = current[pieces[i]];
  \x7d
\x7d
```

`current` is captured *before* the fresh-object assignment to `this.data`, so
when the message had no (or a falsy) body the loop walks a cursor that is
detached from the new body.  Reading or writing a property of
`undefined`/`null` raises `TypeError`; property writes on other primitives
are silently discarded. -/

/-- The loop of `Message.prototype.set` running on a cursor that is detached
from the message body (the initial `current` when `this.data` was falsy, or a
cursor that stepped into a primitive): writes are lost, and the function only
decides whether a `TypeError` is raised. -/
def detachedSetRun : Option Js → List (List Char) → Except JsErr Unit
  | _, [] => .ok ()
  | c, [_] =>
      match c with
      | none => .error .typeError
      | some .null => .error .typeError
      | some _ => .ok ()
  | c, p :: ps =>
      match c with
      | none => .error .typeError
      | some .null => .error .typeError
      | some v => detachedSetRun (jsIndex v p) ps

/-- The loop of `Message.prototype.set` while the cursor is an object inside
the body: the final piece assigns the value; a missing or falsy intermediate
is replaced by a fresh object; a truthy non-object intermediate detaches the
cursor. -/
def attachedSetGo : Js → List (List Char) → Js → Except JsErr Js
  | d, [], _ => .ok d
  | d, [p], v =>
      match d with
      | .obj fs => .ok (.obj (setField fs p v))
      | .null => .error .typeError
      | _ => .ok d
  | d, p :: ps, v =>
      match d with
      | .obj fs =>
          match lookupField fs p with
          | some child =>
              if jsTruthy child then
                match child with
                | .obj _ =>
                    (attachedSetGo child ps v).map
                      (fun child2 => .obj (setField fs p child2))
                | _ =>
                    (detachedSetRun (some child) ps).map (fun _ => .obj fs)
              else
                (attachedSetGo jsEmptyObj ps v).map
                  (fun child2 => .obj (setField fs p child2))
          | none =>
              (attachedSetGo jsEmptyObj ps v).map
                (fun child2 => .obj (setField fs p child2))
      | .null => .error .typeError
      | other =>
          (detachedSetRun (some other) (p :: ps)).map (fun _ => other)

/-- Embedding of `Message.prototype.set(path, value)`: returns the message
body after the call, or the `TypeError` the call raises.  When the old body
is falsy the new body is the fresh empty object assigned to `this.data`, and
the loop runs detached on the old body. -/
def msgSet (data : Option Js) (path : String) (v : Js) :
    Except JsErr (Option Js) :=
  let pieces := splitDot path.toList
  match data with
  | some d =>
      if jsTruthy d then
        match d with
        | .obj _ => (attachedSetGo d pieces v).map some
        | _ => (detachedSetRun (some d) pieces).map (fun _ => some d)
      else
        (detachedSetRun (some d) pieces).map (fun _ => some jsEmptyObj)
  | none => (detachedSetRun none pieces).map (fun _ => some jsEmptyObj)

/-! ### JSON text: the model of JSON.stringify and JSON.parse

`Message.prototype.serialize` / `deserialize` (src/unnamed/part_001 lines
72-86) delegate to the platform's `JSON.stringify` / `JSON.parse`; these are
modelled by an executable printer and recursive-descent parser over `Js`.
The printer escapes `"` and `\`; the parser additionally accepts the other
single-character JSON escapes.  Whitespace and `\u` escapes are not modelled
(the printer emits neither). -/

/-- The `\x7b` character. -/
def lbrace : Char := Char.ofNat 123

/-- The `\x7d` character. -/
def rbrace : Char := Char.ofNat 125

/-- String-character escaping as `JSON.stringify` performs it for the quote
and backslash characters. -/
def escChar (c : Char) : List Char :=
  if c = '"' ∨ c = '\\' then ['\\', c] else [c]

/-- Escape a whole string body. -/
def escapeChars (s : List Char) : List Char :=
  s.foldr (fun c acc => escChar c ++ acc) []

/-- Decimal digits of a natural number, most significant first
(accumulator-passing). -/
def natDigitsAux (n : Nat) (acc : List Char) : List Char :=
  if h : n = 0 then acc
  else natDigitsAux (n / 10) (Char.ofNat (48 + n % 10) :: acc)
termination_by n
decreasing_by exact Nat.div_lt_self (Nat.pos_of_ne_zero h) (by omega)

/-- Decimal rendering of a natural number. -/
def natDigits (n : Nat) : List Char :=
  if n = 0 then ['0'] else natDigitsAux n []

/-- Decimal rendering of an integer. -/
def strInt (n : Int) : List Char :=
  if n < 0 then '-' :: natDigits n.natAbs else natDigits n.natAbs

mutual

/-- The model of `JSON.stringify` on a defined value. -/
def strJs : Js → List Char
  | .num n => strInt n
  | .str s => '"' :: (escapeChars s ++ ['"'])
  | .arr es => '[' :: strArrBody es
  | .obj fs => lbrace :: strObjBody fs
  | .null => 'n' :: ['u', 'l', 'l']
  | .bool b => if b then 't' :: ['r', 'u', 'e'] else 'f' :: ['a', 'l', 's', 'e']

/-- Array contents plus the closing bracket. -/
def strArrBody : JsArr → List Char
  | .nil => [']']
  | .cons h t => strJs h ++ strArrTail t

/-- Continuation of an array after one element: a comma before each further
element, then the closing bracket. -/
def strArrTail : JsArr → List Char
  | .nil => [']']
  | .cons h t => ',' :: (strJs h ++ strArrTail t)

/-- Object contents plus the closing brace. -/
def strObjBody : JsObj → List Char
  | .nil => [rbrace]
  | .cons k v t => strField k v ++ strObjTail t

/-- Continuation of an object after one field. -/
def strObjTail : JsObj → List Char
  | .nil => [rbrace]
  | .cons k v t => ',' :: (strField k v ++ strObjTail t)

/-- One rendered object field: quoted key, colon, value. -/
def strField (k : List Char) (v : Js) : List Char :=
  '"' :: (escapeChars k ++ ('"' :: ':' :: strJs v))

end

/-! Sizes used to budget the parser fuel. -/

mutual

/-- Node count of a value. -/
def jsSize : Js → Nat
  | .arr es => arrSize es + 1
  | .obj fs => objSize fs + 1
  | _ => 1

def arrSize : JsArr → Nat
  | .nil => 0
  | .cons h t => jsSize h + arrSize t + 1

def objSize : JsObj → Nat
  | .nil => 0
  | .cons _ v t => jsSize v + objSize t + 1

end

/-- Unescaping of the character after a backslash (the single-character JSON
escapes; `\u` is not modelled). -/
def unescChar (c : Char) : Option Char :=
  if c = '"' then some '"'
  else if c = '\\' then some '\\'
  else if c = '/' then some '/'
  else if c = 'n' then some '\n'
  else if c = 't' then some '\t'
  else if c = 'r' then some '\r'
  else if c = 'b' then some (Char.ofNat 8)
  else if c = 'f' then some (Char.ofNat 12)
  else none

/-- Parse the body of a JSON string after the opening quote; the flag records
whether the previous character was an unconsumed backslash. -/
def parseStrBodyAux : Bool → List Char → Option (List Char × List Char)
  | true, [] => none
  | true, e :: rest =>
      match unescChar e with
      | some d =>
          match parseStrBodyAux false rest with
          | some (s, r) => some (d :: s, r)
          | none => none
      | none => none
  | false, [] => none
  | false, c :: rest =>
      if c = '"' then some ([], rest)
      else if c = '\\' then parseStrBodyAux true rest
      else
        match parseStrBodyAux false rest with
        | some (s, r) => some (c :: s, r)
        | none => none

/-- Parse the body of a JSON string after the opening quote, returning the
unescaped characters and the remaining input after the closing quote. -/
def parseStrBody : List Char → Option (List Char × List Char) :=
  parseStrBodyAux false

/-- Take the longest prefix of decimal digits. -/
def takeDigits : List Char → List Char × List Char
  | [] => ([], [])
  | c :: rest =>
      if c.isDigit then
        let p := takeDigits rest
        (c :: p.1, p.2)
      else ([], c :: rest)

/-- Numeric value of a digit character. -/
def digitVal (c : Char) : Nat := c.toNat - 48

/-- Numeric value of a digit string, most significant first. -/
def digitsToNat (ds : List Char) : Nat :=
  ds.foldl (fun a c => 10 * a + digitVal c) 0

/-- Parse a JSON integer (optional minus sign, then digits). -/
def parseNum : List Char → Option (Js × List Char)
  | [] => none
  | c :: rest =>
      if c = '-' then
        let p := takeDigits rest
        if p.1.isEmpty then none
        else some (.num (-(digitsToNat p.1 : Int)), p.2)
      else
        let p := takeDigits (c :: rest)
        if p.1.isEmpty then none
        else some (.num (digitsToNat p.1 : Int), p.2)

/-- Consume an expected literal character sequence from the input. -/
def stripLit : List Char → List Char → Option (List Char)
  | [], s => some s
  | _ :: _, [] => none
  | c :: cs, d :: ds => if d = c then stripLit cs ds else none

mutual

/-- Fueled recursive-descent parser for a JSON value. -/
def parseVal : Nat → List Char → Option (Js × List Char)
  | 0, _ => none
  | fuel + 1, s =>
      match s with
      | [] => none
      | c :: r =>
          if c = 'n' then
            match stripLit ['u', 'l', 'l'] r with
            | some r2 => some (.null, r2)
            | none => none
          else if c = 't' then
            match stripLit ['r', 'u', 'e'] r with
            | some r2 => some (.bool true, r2)
            | none => none
          else if c = 'f' then
            match stripLit ['a', 'l', 's', 'e'] r with
            | some r2 => some (.bool false, r2)
            | none => none
          else if c = '"' then
            match parseStrBody r with
            | some (cs, r2) => some (.str cs, r2)
            | none => none
          else if c = '-' ∨ c.isDigit then parseNum (c :: r)
          else if c = '[' then
            if r.head? = some ']' then some (.arr .nil, r.tail)
            else
              match parseElems fuel r with
              | some (es, r3) => some (.arr es, r3)
              | none => none
          else if c = lbrace then
            if r.head? = some rbrace then some (.obj .nil, r.tail)
            else
              match parseFields fuel r with
              | some (fs, r3) => some (.obj fs, r3)
              | none => none
          else none

/-- Parse one or more comma-separated array elements then the closing
bracket. -/
def parseElems : Nat → List Char → Option (JsArr × List Char)
  | 0, _ => none
  | fuel + 1, s =>
      match parseVal fuel s with
      | none => none
      | some (v, r) =>
          if r.head? = some ',' then
            match parseElems fuel r.tail with
            | some (tl, r3) => some (.cons v tl, r3)
            | none => none
          else if r.head? = some ']' then some (.cons v .nil, r.tail)
          else none

/-- Parse one or more comma-separated object fields then the closing
brace. -/
def parseFields : Nat → List Char → Option (JsObj × List Char)
  | 0, _ => none
  | fuel + 1, s =>
      match s with
      | [] => none
      | c :: r =>
          if c = '"' then
            match parseStrBody r with
            | some (k, r2) =>
                if r2.head? = some ':' then
                  match parseVal fuel r2.tail with
                  | some (v, r4) =>
                      if r4.head? = some ',' then
                        match parseFields fuel r4.tail with
                        | some (tl, r6) => some (.cons k v tl, r6)
                        | none => none
                      else if r4.head? = some rbrace then
                        some (.cons k v .nil, r4.tail)
                      else none
                  | none => none
                else none
            | none => none
          else none

end

/-- A residual input is safe to follow a rendered number when it does not
begin with a digit (so the greedy digit scan stops at the boundary). -/
def headSafe : List Char → Bool
  | [] => true
  | c :: _ => !c.isDigit

/-- The model of `JSON.parse`: parse with enough fuel and require the whole
input to be consumed. -/
def jsonParse (s : List Char) : Option Js :=
  match parseVal (s.length + 1) s with
  | some (v, []) => some v
  | _ => none

/-! ### Message serialization (src/unnamed/part_001 lines 5-14 and 72-86) -/

/-- The `Message` state: `data` is the structured body (or `undefined`),
`raw` the cached byte buffer (or `null`). -/
structure Msg where
  data : Option Js
  raw : Option (List Char)
deriving DecidableEq

/-- Embedding of `new Message(buffer)`. -/
def msgOfBuffer (s : List Char) : Msg := ⟨none, some s⟩

/-- Embedding of `new Message(object)`. -/
def msgOfBody (v : Js) : Msg := ⟨some v, none⟩

/-- Embedding of `Message.prototype.deserialize`: `JSON.parse` the raw buffer
into `data` (a parse failure raises, modelled as an error). -/
def msgDeserialize (m : Msg) : Except JsErr Msg :=
  match m.raw with
  | some r =>
      match jsonParse r with
      | some v => .ok { m with data := some v }
      | none => .error .typeError
  | none => .ok m

/-- Embedding of `Message.prototype.serialize`:
`this.raw = new Buffer(JSON.stringify(this.data) || '')`, returning the
buffer; `JSON.stringify(undefined)` is `undefined`, giving the empty
buffer. -/
def msgSerialize (m : Msg) : List Char × Msg :=
  let out := match m.data with
    | some v => strJs v
    | none => []
  (out, { m with raw := some out })

/-! ### Concrete sample values used by the counterexample theorems -/

/-- A request envelope with id `m1` sent by node `b`. -/
def origDemo : Envelope := { id := some "m1", src := some "b" }

/-- An `_ack` for `m1`, carrying its own fresh id `a7`. -/
def ackDemo : Envelope :=
  { id := some "a7", src := some "b", type := some "_ack", parent := some "m1" }

/-- The nested body `\x7b"a":\x7b"b":1\x7d\x7d`. -/
def demoBody : Js :=
  .obj (.cons ['a'] (.obj (.cons ['b'] (.num 1) .nil)) .nil)

/-- A concrete well-formed envelope buffer:
`\x7b"id":"m1","src":"b"\x7d`. -/
def bufDemo : List Char :=
  ("\x7b\"id\":\"m1\",\"src\":\"b\"\x7d").toList

/-- The structured body carried by `bufDemo`. -/
def bufDemoVal : Js :=
  .obj (.cons ['i', 'd'] (.str ['m', '1'])
    (.cons ['s', 'r', 'c'] (.str ['b']) .nil))

/-!
## Theorems
-/

/-- C1: on an inbound `_reply` whose `parent` keys a pending-reply entry,
`Node.prototype._onReply` (src/unnamed/part_004 lines 542-558) invokes the
registered callbacks in registration order but does *not* drop the entry —
the table after processing still contains it, contradicting the claim's
"and then removes the entry from the table".  `Hub.prototype.onReply`
(src/core/hub.js lines 394-403) does drop it, and a `parent` that keys no
entry changes nothing. -/
theorem nodeOnReply_keeps_entry :
    nodeOnReply [("m1", [10, 20])] (some "m1") = ([10, 20], [("m1", [10, 20])])
    ∧ hubOnReply [("m1", [10, 20])] (some "m1") = ([10, 20], [])
    ∧ hubOnReply [("m1", [10, 20]), ("m2", [30])] (some "mX") =
        ([], [("m1", [10, 20]), ("m2", [30])]) := by
  refine ⟨rfl, rfl, rfl⟩

/-- C2: `Hub.prototype.onAck` (src/core/hub.js lines 348-355) indexes the
pending-ack table with `body.id` — the fresh id of the `_ack` message itself
— instead of `body.parent`, so an ack for `m1` (carrying its own id `a7`)
leaves the pending entry keyed `m1` in place, unfulfilled; the protocol.js
draft (lines 392-397) indexes with the nonexistent object property `msg.id`
and never changes the table at all. -/
theorem hubOnAck_misses_parent_entry :
    hubOnAck [("m1", false)] ackDemo = [("m1", false)]
    ∧ protocolOnAck [("m1", false)] ackDemo = [("m1", false)]
    ∧ (hubOnAck [("m1", false)] ackDemo).lookup "m1" = some false := by
  refine ⟨rfl, rfl, rfl⟩

/-- C3: `Node.prototype.send` (src/unnamed/part_004 lines 326-335) passes the
randomly drawn *index* to `sendTo` as the destination node id, so with one
subscriber `b` for `work` the call fails with the unknown-peer error instead
of behaving as `sendTo` on `b` (which succeeds); and an empty (but present)
cluster-by-type array passes the `if (!this._clusterByMsg[type])` test, so the
no-subscriber case is not reported as `NoSubscribers` either. -/
theorem send_uses_index_as_id :
    send "a" "f1" ["b"] [("work", ["b"])] "work" (some 5) 0 =
      .error .unknownPeer
    ∧ sendTo "a" "f1" ["b"] "b" "work" (some 5) =
        .ok { id := some "f1", src := some "a", dest := some "b",
              type := some "work", data := some 5 }
    ∧ send "a" "f1" ["b"] [("work", [])] "work" (some 5) 0 =
        .error .unknownPeer := by
  have h1 : randRange 0 (List.length ["b"]) (0 : ℚ) = 0 := by
    norm_num [randRange]
  have h0 : randRange 0 (List.length ([] : List String)) (0 : ℚ) = 0 := by
    norm_num [randRange]
  refine ⟨?_, rfl, ?_⟩
  · calc send "a" "f1" ["b"] [("work", ["b"])] "work" (some 5) 0
        = sendTo "a" "f1" ["b"]
            (toString (randRange 0 (List.length ["b"]) (0 : ℚ))) "work"
            (some 5) := rfl
      _ = .error .unknownPeer := by rw [h1]; rfl
  · calc send "a" "f1" ["b"] [("work", [])] "work" (some 5) 0
        = sendTo "a" "f1" ["b"]
            (toString (randRange 0 (List.length ([] : List String)) (0 : ℚ)))
            "work" (some 5) := rfl
      _ = .error .unknownPeer := by rw [h0]; rfl

/-- C4: the reply envelope built by `Hub.prototype.reply` in src/core/hub.js
(lines 365-392) carries no `type` field — only `parent` is passed to the
factory — and the function then invokes the built `Message` object as a
function (`replyMsg().rawBody()`), raising `TypeError` before anything is
emitted.  The evolved drafts do emit a `_reply` addressed to the original's
`src` with `parent = original.id`. -/
theorem hubReply_envelope_untyped :
    (hubBuildReply "a" "f2" origDemo (some 7)).type = none
    ∧ hubReply "a" "f2" origDemo (some 7) = .error .typeError
    ∧ protocolReply "a" "f2" origDemo (some 7) =
        ("gb", { id := some "f2", src := some "a", type := some "_reply",
                 parent := some "m1", data := some 7 })
    ∧ nodeReply "a" "f2" ["b"] origDemo (some 7) =
        .ok ("zb", { id := some "f2", src := some "a", dest := some "b",
                     type := some "_reply", parent := some "m1",
                     data := some 7 }) := by
  refine ⟨rfl, rfl, rfl, rfl⟩

/-- C5: the comparison in `Registry.prototype._prune`
(src/core/registry.js lines 135-151) is `node.heartbeatTime > current`, so
one pass removes exactly the records whose liveness deadline is *after* `now`
(here the live peer, deadline 6000 > 1000) and emits the prune notification
for them, while the expired record (deadline 999 < 1000) stays — the
opposite of the claimed behavior. -/
theorem regPrune_removes_live_peers :
    regPrune [("live", some 6000), ("dead", some 999)] 1000 =
      (["live"], [("dead", some 999)])
    ∧ pruneTest 1000 (some 999) = false
    ∧ pruneTest 1000 (some 6000) = true := by
  refine ⟨rfl, rfl, rfl⟩

/-- C6: `Message.prototype.get` (src/unnamed/part_001 lines 46-66) does
navigate the dotted path through nested mappings and yields the absent
marker on a missing step, but the cited helper `utils.getPath`
(src/core/utils.js lines 62-79, src/unnamed/part_006 lines 65-82) tests and
indexes the *original* object on every iteration, so on the body
`\x7b"a":\x7b"b":1\x7d\x7d` the path `"a.b"` yields `undefined` (the object has no
own property `b`) instead of `1`. -/
theorem getPath_indexes_original_object :
    getPath (some demoBody) "a.b" = none
    ∧ msgGet (some demoBody) "a.b" = some (.num 1)
    ∧ msgGet (some demoBody) "a.b.c" = none
    ∧ getPath (some demoBody) "b.a" = some (.obj (.cons ['b'] (.num 1) .nil)) := by
  refine ⟨rfl, rfl, rfl, rfl⟩

/-- C8: `Message.prototype.set` (src/unnamed/part_001 lines 21-39) captures
`current = this.data` *before* replacing a missing body with a fresh object,
so on a message constructed with no body at all, `set("a", 1)` writes through
the stale `undefined` cursor and raises `TypeError` instead of creating the
mapping.  (With an existing object body the set/get round-trip does work.) -/
theorem msgSet_throws_on_empty_body :
    msgSet none "a" (.num 1) = .error .typeError
    ∧ msgSet (some jsEmptyObj) "a.b" (.num 1) = .ok (some demoBody)
    ∧ msgGet (some demoBody) "a.b" = some (.num 1) := by
  refine ⟨rfl, rfl, rfl⟩

/-- C9: a closed `MessageStream` (src/unnamed/part_002) delivers nothing: once
`state = 2`, `emitMessage` returns the stream unchanged (no message event, no
counter change), `close` is idempotent, no operation leaves the closed state,
and every transition of `emitMessage`/`close` from the reachable states is
ready-to-flowing or (ready or flowing)-to-closed. -/
theorem messageStream_closed_is_final :
    (∀ (s : MessageStream) (m : Nat), s.state = 2 → s.emitMessage m = s)
    ∧ (∀ s : MessageStream, s.close.close = s.close)
    ∧ (∀ (s : MessageStream) (op : StreamOp), s.state = 2 →
        (streamStep s op).state = 2)
    ∧ (∀ (s : MessageStream) (op : StreamOp), s.state ≤ 2 →
        (streamStep s op).state = s.state
        ∨ (s.state = 0 ∧ (streamStep s op).state = 1)
        ∨ (s.state = 0 ∧ (streamStep s op).state = 2)
        ∨ (s.state = 1 ∧ (streamStep s op).state = 2)) := by
  refine ⟨?_, ?_, ?_, ?_⟩
  · intro s m h
    simp [MessageStream.emitMessage, h]
  · intro s
    simp [MessageStream.close]
  · intro s op h
    cases op with
    | emitMsg m => simp [streamStep, MessageStream.emitMessage, h]
    | closeOp => simp [streamStep, MessageStream.close]
  · intro s op h
    cases op with
    | emitMsg m =>
        by_cases h0 : s.state = 0
        · exact Or.inr (Or.inl ⟨h0, by simp [streamStep, MessageStream.emitMessage, h0]⟩)
        · by_cases h2 : s.state = 2
          · exact Or.inl (by simp [streamStep, MessageStream.emitMessage, h0, h2])
          · exact Or.inl (by simp [streamStep, MessageStream.emitMessage, h0, h2])
    | closeOp =>
        have hd : s.state = 0 ∨ s.state = 1 ∨ s.state = 2 := by omega
        rcases hd with h0 | h1 | h2
        · exact Or.inr (Or.inr (Or.inl ⟨h0, by simp [streamStep, MessageStream.close]⟩))
        · exact Or.inr (Or.inr (Or.inr ⟨h1, by simp [streamStep, MessageStream.close]⟩))
        · exact Or.inl (by simp [streamStep, MessageStream.close, h2])

/-- Witness for C9 at a concrete closed stream. -/
theorem messageStream_closed_is_final_witness :
    (⟨3, 2, [7]⟩ : MessageStream).emitMessage 9 = ⟨3, 2, [7]⟩
    ∧ (streamStep ⟨3, 2, [7]⟩ (.emitMsg 9)).state = 2 :=
  ⟨messageStream_closed_is_final.1 ⟨3, 2, [7]⟩ 9 rfl,
   messageStream_closed_is_final.2.2.1 ⟨3, 2, [7]⟩ (.emitMsg 9) rfl⟩

/-- C10: `utils.randRange(a, b)` computes `Math.floor(a + Math.random() * b)`,
whose documented contract is an integer in `[a, b)`; with `a = 1`, `b = 2` and
the draw `r = 1/2` it returns `2`, which is not less than `b`.  (With `a = 0`
the formula is correct.) -/
theorem randRange_exceeds_upper_bound :
    randRange 1 2 (1/2 : ℚ) = 2
    ∧ (2 : Int) ≤ randRange 1 2 (1/2 : ℚ)
    ∧ (0 : Int) ≤ 1 ∧ (1 : Int) < 2 ∧ (0 : ℚ) ≤ 1/2 ∧ (1/2 : ℚ) < 1 := by
  have h : randRange 1 2 (1/2 : ℚ) = 2 := by
    norm_num [randRange]
  refine ⟨h, ?_, by norm_num, by norm_num, by norm_num, by norm_num⟩
  rw [h]

/-! ### Round-trip of the JSON model (towards claim C7) -/

theorem jsSize_pos (v : Js) : 1 ≤ jsSize v := by
  cases v <;> simp [jsSize]

theorem digitVal_digitChar (d : Nat) (h : d < 10) :
    digitVal (Char.ofNat (48 + d)) = d := by
  interval_cases d <;> decide

theorem isDigit_digitChar (d : Nat) (h : d < 10) :
    (Char.ofNat (48 + d)).isDigit = true := by
  interval_cases d <;> decide

theorem isDigit_ne (c d : Char) (hc : c.isDigit = true) (hd : d.isDigit = false) :
    c ≠ d := by
  intro he
  rw [he, hd] at hc
  exact absurd hc (by simp)

theorem natDigitsAux_eq_append (n : Nat) :
    ∀ acc, natDigitsAux n acc = natDigitsAux n [] ++ acc := by
  induction n using Nat.strong_induction_on with
  | _ n ih =>
      intro acc
      by_cases h : n = 0
      · simp [natDigitsAux, h]
      · conv_lhs => rw [natDigitsAux]
        conv_rhs => rw [natDigitsAux]
        simp only [h, dite_false]
        have hdiv : n / 10 < n := Nat.div_lt_self (Nat.pos_of_ne_zero h) (by omega)
        rw [ih (n / 10) hdiv (Char.ofNat (48 + n % 10) :: acc),
            ih (n / 10) hdiv [Char.ofNat (48 + n % 10)]]
        simp

theorem natDigitsAux_all_digits (n : Nat) :
    ∀ c ∈ natDigitsAux n [], c.isDigit = true := by
  induction n using Nat.strong_induction_on with
  | _ n ih =>
      intro c hc
      by_cases h : n = 0
      · simp [natDigitsAux, h] at hc
      · rw [natDigitsAux] at hc
        simp only [h, dite_false] at hc
        rw [natDigitsAux_eq_append] at hc
        rcases List.mem_append.mp hc with hmem | hmem
        · exact ih (n / 10) (Nat.div_lt_self (Nat.pos_of_ne_zero h) (by omega)) c hmem
        · have : c = Char.ofNat (48 + n % 10) := by simpa using hmem
          rw [this]
          exact isDigit_digitChar (n % 10) (Nat.mod_lt n (by omega))

theorem digitsToNat_append_digit (ds : List Char) (c : Char) :
    digitsToNat (ds ++ [c]) = 10 * digitsToNat ds + digitVal c := by
  simp [digitsToNat, List.foldl_append]

theorem digitsToNat_natDigitsAux (n : Nat) :
    digitsToNat (natDigitsAux n []) = n := by
  induction n using Nat.strong_induction_on with
  | _ n ih =>
      by_cases h : n = 0
      · simp [natDigitsAux, h, digitsToNat]
      · rw [natDigitsAux]
        simp only [h, dite_false]
        rw [natDigitsAux_eq_append, digitsToNat_append_digit,
            ih (n / 10) (Nat.div_lt_self (Nat.pos_of_ne_zero h) (by omega)),
            digitVal_digitChar (n % 10) (Nat.mod_lt n (by omega))]
        omega

theorem natDigitsAux_ne_nil (n : Nat) (h : n ≠ 0) : natDigitsAux n [] ≠ [] := by
  rw [natDigitsAux]
  simp only [h, dite_false]
  rw [natDigitsAux_eq_append]
  simp

theorem digitsToNat_natDigits (n : Nat) : digitsToNat (natDigits n) = n := by
  by_cases h : n = 0
  · simp [natDigits, h, digitsToNat, digitVal]
  · simp [natDigits, h, digitsToNat_natDigitsAux]

theorem natDigits_ne_nil (n : Nat) : natDigits n ≠ [] := by
  by_cases h : n = 0
  · simp [natDigits, h]
  · simp only [natDigits, h, ite_false]
    exact natDigitsAux_ne_nil n h

theorem natDigits_all_digits (n : Nat) :
    ∀ c ∈ natDigits n, c.isDigit = true := by
  by_cases h : n = 0
  · intro c hc
    simp [natDigits, h] at hc
    rw [hc]
    decide
  · intro c hc
    simp only [natDigits, h, ite_false] at hc
    exact natDigitsAux_all_digits n c hc

theorem takeDigits_append (ds r : List Char)
    (hd : ∀ c ∈ ds, c.isDigit = true) (hr : headSafe r = true) :
    takeDigits (ds ++ r) = (ds, r) := by
  induction ds with
  | nil =>
      cases r with
      | nil => simp [takeDigits]
      | cons c r' =>
          have : c.isDigit = false := by
            simpa [headSafe] using hr
          simp [takeDigits, this]
  | cons d ds' ih =>
      have hdd : d.isDigit = true := hd d (by simp)
      have ih' := ih (fun c hc => hd c (by simp [hc]))
      simp [takeDigits, hdd, ih']

theorem parseStrBody_escape (s : List Char) :
    ∀ rest, parseStrBody (escapeChars s ++ ('"' :: rest)) = some (s, rest) := by
  induction s with
  | nil =>
      intro rest
      have h : escapeChars ([] : List Char) ++ ('"' :: rest) = '"' :: rest := by
        simp [escapeChars]
      rw [parseStrBody, h, parseStrBodyAux]
      simp
  | cons c cs ih =>
      intro rest
      have hstep : escapeChars (c :: cs) = escChar c ++ escapeChars cs := by
        simp [escapeChars]
      by_cases hc : c = '"' ∨ c = '\\'
      · have hesc : escChar c = ['\\', c] := by simp [escChar, hc]
        have hun : unescChar c = some c := by
          rcases hc with h | h <;> rw [h] <;> decide
        have hsh : escapeChars (c :: cs) ++ ('"' :: rest) =
            '\\' :: (c :: (escapeChars cs ++ ('"' :: rest))) := by
          rw [hstep, hesc]
          simp
        rw [parseStrBody, hsh, parseStrBodyAux]
        simp only [show ('\\' = '"') = False by decide, if_false, if_true]
        rw [parseStrBodyAux]
        have hihx := ih rest
        rw [parseStrBody] at hihx
        simp [hun, hihx]
      · push_neg at hc
        have hesc : escChar c = [c] := by
          simp [escChar, hc.1, hc.2]
        have hsh : escapeChars (c :: cs) ++ ('"' :: rest) =
            c :: (escapeChars cs ++ ('"' :: rest)) := by
          rw [hstep, hesc]
          simp
        rw [parseStrBody, hsh, parseStrBodyAux]
        have hihx := ih rest
        rw [parseStrBody] at hihx
        simp [hc.1, hc.2, hihx]

theorem parseNum_strInt (n : Int) (rest : List Char)
    (hr : headSafe rest = true) :
    parseNum (strInt n ++ rest) = some (.num n, rest) := by
  by_cases hn : n < 0
  · have hs : strInt n = '-' :: natDigits n.natAbs := by
      simp [strInt, hn]
    rw [hs]
    have htd := takeDigits_append (natDigits n.natAbs) rest
      (natDigits_all_digits n.natAbs) hr
    have hemp : (natDigits n.natAbs).isEmpty = false := by
      simpa [List.isEmpty_iff] using natDigits_ne_nil n.natAbs
    have hval : -((digitsToNat (natDigits n.natAbs) : Int)) = n := by
      rw [digitsToNat_natDigits]
      omega
    rw [List.cons_append, parseNum]
    simp [htd, hemp, hval]
  · have hs : strInt n = natDigits n.natAbs := by
      simp [strInt, hn]
    obtain ⟨d, ds, hds⟩ : ∃ d ds, natDigits n.natAbs = d :: ds := by
      cases hnd : natDigits n.natAbs with
      | nil => exact absurd hnd (natDigits_ne_nil n.natAbs)
      | cons d ds => exact ⟨d, ds, rfl⟩
    have hdd : d.isDigit = true := natDigits_all_digits n.natAbs d (by rw [hds]; simp)
    have hdne : d ≠ '-' := isDigit_ne d '-' hdd (by decide)
    have htd := takeDigits_append (natDigits n.natAbs) rest
      (natDigits_all_digits n.natAbs) hr
    rw [hs, hds]
    rw [hds] at htd
    simp only [List.cons_append, parseNum, hdne, if_false]
    rw [show d :: (ds ++ rest) = (d :: ds) ++ rest from rfl, htd]
    simp only [List.isEmpty_cons, Bool.false_eq_true, if_false]
    rw [show (d :: ds) = natDigits n.natAbs from hds.symm, digitsToNat_natDigits]
    have : ((n.natAbs : Int)) = n := by omega
    rw [this]

theorem strJs_head (v : Js) :
    ∃ c cs, strJs v = c :: cs ∧ c ≠ ']' ∧ c ≠ rbrace := by
  cases v with
  | null =>
      exact ⟨'n', ['u', 'l', 'l'], by simp [strJs], by decide, by decide⟩
  | bool b =>
      cases b
      · exact ⟨'f', ['a', 'l', 's', 'e'], by simp [strJs], by decide, by decide⟩
      · exact ⟨'t', ['r', 'u', 'e'], by simp [strJs], by decide, by decide⟩
  | num n =>
      by_cases hn : n < 0
      · exact ⟨'-', natDigits n.natAbs, by simp [strJs, strInt, hn],
               by decide, by decide⟩
      · obtain ⟨d, ds, hds⟩ : ∃ d ds, natDigits n.natAbs = d :: ds := by
          cases hnd : natDigits n.natAbs with
          | nil => exact absurd hnd (natDigits_ne_nil n.natAbs)
          | cons d ds => exact ⟨d, ds, rfl⟩
        have hdd : d.isDigit = true :=
          natDigits_all_digits n.natAbs d (by rw [hds]; simp)
        exact ⟨d, ds, by simp [strJs, strInt, hn, hds],
               isDigit_ne d ']' hdd (by decide),
               isDigit_ne d rbrace hdd (by decide)⟩
  | str s =>
      exact ⟨'"', escapeChars s ++ ['"'], by simp [strJs], by decide, by decide⟩
  | arr es =>
      exact ⟨'[', strArrBody es, by simp [strJs], by decide, by decide⟩
  | obj fs =>
      exact ⟨lbrace, strObjBody fs, by simp [strJs], by decide, by decide⟩

theorem headSafe_strArrTail (t : JsArr) (rest : List Char) :
    headSafe (strArrTail t ++ rest) = true := by
  cases t <;> simp [strArrTail, headSafe]

theorem headSafe_strObjTail (t : JsObj) (rest : List Char) :
    headSafe (strObjTail t ++ rest) = true := by
  cases t with
  | nil => simp [strObjTail, headSafe, rbrace]
  | cons k v t' => simp [strObjTail, headSafe]

theorem stripLit_append (lit : List Char) :
    ∀ s, stripLit lit (lit ++ s) = some s := by
  induction lit with
  | nil => intro s; simp [stripLit]
  | cons c cs ih => intro s; simp [stripLit, ih]

theorem parse_strJs_round (fuel : Nat) :
    (∀ (v : Js) (rest : List Char), jsSize v < fuel → headSafe rest = true →
        parseVal fuel (strJs v ++ rest) = some (v, rest))
    ∧ (∀ (h : Js) (t : JsArr) (rest : List Char),
        arrSize (.cons h t) < fuel → headSafe rest = true →
        parseElems fuel (strArrBody (.cons h t) ++ rest) =
          some (.cons h t, rest))
    ∧ (∀ (k : List Char) (v : Js) (t : JsObj) (rest : List Char),
        objSize (.cons k v t) < fuel → headSafe rest = true →
        parseFields fuel (strObjBody (.cons k v t) ++ rest) =
          some (.cons k v t, rest)) := by
  induction fuel with
  | zero =>
      refine ⟨?_, ?_, ?_⟩
      · intro v _ hsz _
        exact absurd hsz (by omega)
      · intro _ _ _ hsz _
        exact absurd hsz (by omega)
      · intro _ _ _ _ hsz _
        exact absurd hsz (by omega)
  | succ fuel ih =>
      obtain ⟨ihv, ihe, ihf⟩ := ih
      refine ⟨?_, ?_, ?_⟩
      · intro v rest hsz hrest
        cases v with
        | null =>
            have hs : strJs Js.null ++ rest =
                'n' :: (['u', 'l', 'l'] ++ rest) := by
              simp [strJs]
            rw [hs, parseVal, stripLit_append]
            simp
        | bool b =>
            cases b
            · have hs : strJs (Js.bool false) ++ rest =
                  'f' :: (['a', 'l', 's', 'e'] ++ rest) := by
                simp [strJs]
              rw [hs, parseVal, stripLit_append]
              simp
            · have hs : strJs (Js.bool true) ++ rest =
                  't' :: (['r', 'u', 'e'] ++ rest) := by
                simp [strJs]
              rw [hs, parseVal, stripLit_append]
              simp
        | num n =>
            have hpn := parseNum_strInt n rest hrest
            by_cases hn : n < 0
            · have hs : strJs (Js.num n) ++ rest =
                  '-' :: (natDigits n.natAbs ++ rest) := by
                simp [strJs, strInt, hn]
              rw [hs, parseVal]
              simp only [show ('-' = 'n') = False by decide,
                show ('-' = 't') = False by decide,
                show ('-' = 'f') = False by decide,
                show ('-' = '"') = False by decide, if_false,
                true_or, if_true]
              rw [show '-' :: (natDigits n.natAbs ++ rest) = strInt n ++ rest by
                simp [strInt, hn]]
              exact hpn
            · obtain ⟨d, ds, hds⟩ : ∃ d ds, natDigits n.natAbs = d :: ds := by
                cases hnd : natDigits n.natAbs with
                | nil => exact absurd hnd (natDigits_ne_nil n.natAbs)
                | cons d ds => exact ⟨d, ds, rfl⟩
              have hdd : d.isDigit = true :=
                natDigits_all_digits n.natAbs d (by rw [hds]; simp)
              have hs : strJs (Js.num n) ++ rest = d :: (ds ++ rest) := by
                simp [strJs, strInt, hn, hds]
              rw [hs, parseVal]
              simp only [isDigit_ne d 'n' hdd (by decide),
                isDigit_ne d 't' hdd (by decide),
                isDigit_ne d 'f' hdd (by decide),
                isDigit_ne d '"' hdd (by decide),
                if_false, hdd, or_true, if_true]
              rw [show d :: (ds ++ rest) = strInt n ++ rest by
                simp [strInt, hn, hds]]
              exact hpn
        | str s =>
            have hs : strJs (Js.str s) ++ rest =
                '"' :: (escapeChars s ++ ('"' :: rest)) := by
              simp [strJs]
            rw [hs, parseVal, parseStrBody_escape s rest]
            simp
        | arr es =>
            cases es with
            | nil =>
                have hs : strJs (Js.arr .nil) ++ rest = '[' :: (']' :: rest) := by
                  simp [strJs, strArrBody]
                rw [hs, parseVal]
                simp
            | cons h t =>
                obtain ⟨c2, cs2, hc2, hne1, _⟩ := strJs_head h
                have hs : strJs (Js.arr (.cons h t)) ++ rest =
                    '[' :: (strArrBody (.cons h t) ++ rest) := by
                  simp [strJs]
                have hhead : (strArrBody (.cons h t) ++ rest).head? = some c2 := by
                  rw [strArrBody, hc2]
                  simp
                have hb : arrSize (.cons h t) < fuel := by
                  simp [jsSize] at hsz
                  omega
                rw [hs, parseVal]
                rw [if_neg (by decide : ¬ ('[' = 'n')),
                  if_neg (by decide : ¬ ('[' = 't')),
                  if_neg (by decide : ¬ ('[' = 'f')),
                  if_neg (by decide : ¬ ('[' = '"')),
                  if_neg (by decide : ¬ ('[' = '-' ∨ ('[').isDigit = true)),
                  if_pos rfl, hhead]
                rw [if_neg (by simp [hne1] : ¬ (some c2 = some ']'))]
                rw [ihe h t rest hb hrest]
        | obj fs =>
            cases fs with
            | nil =>
                have hs : strJs (Js.obj .nil) ++ rest =
                    lbrace :: (rbrace :: rest) := by
                  simp [strJs, strObjBody]
                rw [hs, parseVal]
                rw [if_neg (by decide : ¬ lbrace = 'n'),
                  if_neg (by decide : ¬ lbrace = 't'),
                  if_neg (by decide : ¬ lbrace = 'f'),
                  if_neg (by decide : ¬ lbrace = '"'),
                  if_neg (by decide : ¬ (lbrace = '-' ∨ lbrace.isDigit = true)),
                  if_neg (by decide : ¬ lbrace = '[')]
                rw [if_pos rfl]
                simp
            | cons k v t =>
                have hs : strJs (Js.obj (.cons k v t)) ++ rest =
                    lbrace :: (strObjBody (.cons k v t) ++ rest) := by
                  simp [strJs]
                have hhead : (strObjBody (.cons k v t) ++ rest).head? =
                    some '"' := by
                  rw [strObjBody, strField]
                  simp
                have hb : objSize (.cons k v t) < fuel := by
                  simp [jsSize] at hsz
                  omega
                rw [hs, parseVal]
                rw [if_neg (by decide : ¬ lbrace = 'n'),
                  if_neg (by decide : ¬ lbrace = 't'),
                  if_neg (by decide : ¬ lbrace = 'f'),
                  if_neg (by decide : ¬ lbrace = '"'),
                  if_neg (by decide : ¬ (lbrace = '-' ∨ lbrace.isDigit = true)),
                  if_neg (by decide : ¬ lbrace = '['), if_pos rfl, hhead]
                rw [if_neg (by decide : ¬ (some '"' = some rbrace))]
                rw [ihf k v t rest hb hrest]
      · intro h t rest hsz hrest
        have hb : jsSize h < fuel := by
          have := jsSize_pos h
          simp [arrSize] at hsz
          omega
        have hv := ihv h (strArrTail t ++ rest) hb (headSafe_strArrTail t rest)
        have hshape : strArrBody (.cons h t) ++ rest =
            strJs h ++ (strArrTail t ++ rest) := by
          rw [strArrBody]
          simp
        rw [hshape, parseElems, hv]
        cases t with
        | nil =>
            rw [show strArrTail JsArr.nil ++ rest = ']' :: rest by
              rw [strArrTail]; rfl]
            simp
        | cons h2 t2 =>
            have hb2 : arrSize (.cons h2 t2) < fuel := by
              have := jsSize_pos h
              simp [arrSize] at hsz ⊢
              omega
            rw [show strArrTail (.cons h2 t2) ++ rest =
                  ',' :: (strArrBody (.cons h2 t2) ++ rest) by
              rw [strArrTail, strArrBody]; simp]
            simp [ihe h2 t2 rest hb2 hrest]
      · intro k v t rest hsz hrest
        have hb : jsSize v < fuel := by
          simp [objSize] at hsz
          omega
        have hv := ihv v (strObjTail t ++ rest) hb (headSafe_strObjTail t rest)
        have hshape : strObjBody (.cons k v t) ++ rest =
            '"' :: (escapeChars k ++
              ('"' :: (':' :: (strJs v ++ (strObjTail t ++ rest))))) := by
          rw [strObjBody, strField]
          simp
        rw [hshape, parseFields]
        rw [if_pos rfl,
          parseStrBody_escape k (':' :: (strJs v ++ (strObjTail t ++ rest)))]
        simp only [List.head?_cons, List.tail_cons]
        rw [hv]
        cases t with
        | nil =>
            rw [show strObjTail JsObj.nil ++ rest = rbrace :: rest by
              rw [strObjTail]; rfl]
            have hne : rbrace ≠ ',' := by decide
            simp [hne]
        | cons k2 v2 t2 =>
            have hb2 : objSize (.cons k2 v2 t2) < fuel := by
              have := jsSize_pos v
              simp [objSize] at hsz ⊢
              omega
            rw [show strObjTail (.cons k2 v2 t2) ++ rest =
                  ',' :: (strObjBody (.cons k2 v2 t2) ++ rest) by
              rw [strObjTail, strObjBody]; simp]
            simp [ihf k2 v2 t2 rest hb2 hrest]

theorem size_le_render (bound : Nat) :
    (∀ v : Js, jsSize v ≤ bound → jsSize v ≤ (strJs v).length)
    ∧ (∀ es : JsArr, arrSize es ≤ bound →
        arrSize es < (strArrTail es).length ∧
        arrSize es ≤ (strArrBody es).length)
    ∧ (∀ fs : JsObj, objSize fs ≤ bound →
        objSize fs < (strObjTail fs).length ∧
        objSize fs ≤ (strObjBody fs).length) := by
  induction bound with
  | zero =>
      refine ⟨?_, ?_, ?_⟩
      · intro v hsz
        exact absurd hsz (by have := jsSize_pos v; omega)
      · intro es hsz
        cases es with
        | nil =>
            constructor
            · rw [strArrTail]
              simp [arrSize]
            · rw [strArrBody]
              simp [arrSize]
        | cons h t =>
            exact absurd hsz (by simp [arrSize])
      · intro fs hsz
        cases fs with
        | nil =>
            constructor
            · rw [strObjTail]
              simp [objSize]
            · rw [strObjBody]
              simp [objSize]
        | cons k v t =>
            exact absurd hsz (by simp [objSize])
  | succ bound ih =>
      obtain ⟨ihv, ihe, ihf⟩ := ih
      refine ⟨?_, ?_, ?_⟩
      · intro v hsz
        cases v with
        | null => rw [strJs]; simp [jsSize]
        | bool b => cases b <;> (rw [strJs]; simp [jsSize])
        | num n =>
            have : 1 ≤ (strInt n).length := by
              by_cases hn : n < 0
              · simp [strInt, hn]
              · simp only [strInt, hn, if_false]
                have := natDigits_ne_nil n.natAbs
                cases hnd : natDigits n.natAbs with
                | nil => exact absurd hnd this
                | cons d ds => simp
            rw [strJs]
            simpa [jsSize] using this
        | str s => rw [strJs]; simp [jsSize]
        | arr es =>
            have hes : arrSize es ≤ bound := by
              simp [jsSize] at hsz
              omega
            have := (ihe es hes).2
            rw [strJs]
            simp [jsSize]
            omega
        | obj fs =>
            have hfs : objSize fs ≤ bound := by
              simp [jsSize] at hsz
              omega
            have := (ihf fs hfs).2
            rw [strJs]
            simp [jsSize]
            omega
      · intro es hsz
        cases es with
        | nil =>
            constructor
            · rw [strArrTail]
              simp [arrSize]
            · rw [strArrBody]
              simp [arrSize]
        | cons h t =>
            have hh : jsSize h ≤ bound := by
              simp [arrSize] at hsz
              omega
            have ht : arrSize t ≤ bound := by
              have := jsSize_pos h
              simp [arrSize] at hsz
              omega
            have h1 := ihv h hh
            have h2 := (ihe t ht).1
            constructor
            · rw [strArrTail]
              simp [arrSize]
              omega
            · rw [strArrBody]
              simp [arrSize]
              omega
      · intro fs hsz
        cases fs with
        | nil =>
            constructor
            · rw [strObjTail]
              simp [objSize]
            · rw [strObjBody]
              simp [objSize]
        | cons k v t =>
            have hh : jsSize v ≤ bound := by
              simp [objSize] at hsz
              omega
            have ht : objSize t ≤ bound := by
              have := jsSize_pos v
              simp [objSize] at hsz
              omega
            have h1 := ihv v hh
            have h2 := (ihf t ht).1
            have hfield : (strField k v).length = (strJs v).length +
                (escapeChars k).length + 3 := by
              rw [strField]
              simp
              omega
            constructor
            · rw [strObjTail]
              simp [objSize, hfield]
              omega
            · rw [strObjBody]
              simp [objSize, hfield]
              omega

theorem jsonParse_strJs (v : Js) : jsonParse (strJs v) = some v := by
  have hsz : jsSize v ≤ (strJs v).length :=
    (size_le_render (jsSize v)).1 v le_rfl
  have h := (parse_strJs_round ((strJs v).length + 1)).1 v []
    (by omega) (by simp [headSafe])
  unfold jsonParse
  rw [List.append_nil] at h
  rw [h]

/-- C7: for every well-formed envelope byte buffer (one that `JSON.parse`
accepts as a value `v`), `Message.prototype.deserialize` on the buffer
succeeds with that structured body, and serializing the resulting body
(`Message.prototype.serialize`, src/unnamed/part_001 lines 72-86) yields a
buffer that parses back to the very same value — so every field of the
re-serialized envelope equals the original's. -/
theorem serialize_after_deserialize_preserves_fields
    (s : List Char) (v : Js) (h : jsonParse s = some v) :
    ∃ m, msgDeserialize (msgOfBuffer s) = .ok m ∧ m.data = some v ∧
      jsonParse (msgSerialize m).1 = some v := by
  refine ⟨⟨some v, some s⟩, ?_, rfl, ?_⟩
  · simp [msgDeserialize, msgOfBuffer, h]
  · simp [msgSerialize, jsonParse_strJs]

/-- Witness for C7 on the concrete envelope `\x7b"id":"m1","src":"b"\x7d`. -/
theorem serialize_after_deserialize_preserves_fields_witness :
    ∃ m, msgDeserialize (msgOfBuffer bufDemo) = .ok m ∧
      m.data = some bufDemoVal ∧
      jsonParse (msgSerialize m).1 = some bufDemoVal :=
  serialize_after_deserialize_preserves_fields bufDemo bufDemoVal (by decide)

end Gossip
